import Mathlib

/-!
Shallow embedding of `scraper.py` (mocha0908/card-site): the listing-page
crawl engine.  HTML fragments are modelled as parsed DOM forests (BeautifulSoup
with `html.parser` is lenient and total, so any string input, however
malformed, yields such a forest).  Python strings are `String`, with the
Python `str` operations the code uses (`strip`, `in`, `split`, `replace`)
implemented structurally over `String.data` so that they evaluate on
concrete inputs.  Filesystem effects of `write_csv` are modelled as a
function on the optional file content at the output path; the webdriver is
modelled by an oracle giving each `driver.get`/wait outcome.
-/

namespace Scraper

/-! ## Python string operations (embedding of `str.strip`, `in`, `str.split`, `str.replace`) -/

/-- Python `str.strip()`: drop whitespace from both ends. -/
def trimChars (l : List Char) : List Char :=
  ((l.dropWhile Char.isWhitespace).reverse.dropWhile Char.isWhitespace).reverse

/-- Python `s.strip()`. -/
def pyStrip (s : String) : String := ⟨trimChars s.data⟩

/-- Does the list start with the given pattern? -/
def lStarts : List Char → List Char → Bool
  | _, [] => true
  | [], _ :: _ => false
  | c :: cs, d :: ds => c == d && lStarts cs ds

/-- Python `pat in s` for a non-empty pattern. -/
def hasSub : List Char → List Char → Bool
  | l, pat => lStarts l pat || (match l with | [] => false | _ :: cs => hasSub cs pat)

/-- Characters strictly before the first occurrence of `pat` (the whole list
if `pat` does not occur): Python `s.split(pat)[0]`. -/
def beforeSub (pat : List Char) : List Char → List Char
  | [] => []
  | c :: cs => if lStarts (c :: cs) pat then [] else c :: beforeSub pat cs

/-- Characters strictly after the first occurrence of `pat` (empty if `pat`
does not occur).  `beforeSub pat (afterSub pat l)` is Python `s.split(pat)[1]`
when `pat in s`. -/
def afterSub (pat : List Char) : List Char → List Char
  | [] => []
  | c :: cs => if lStarts (c :: cs) pat then (c :: cs).drop pat.length else afterSub pat cs

/-- Python `s.replace(pat, rep)` (all non-overlapping occurrences, left to
right).  Fuelled so the recursion is structural; each step consumes at least
one character, so fuel `l.length` suffices. -/
def replFuel (pat rep : List Char) : Nat → List Char → List Char
  | 0, l => l
  | _ + 1, [] => []
  | f + 1, c :: cs =>
    if lStarts (c :: cs) pat && !pat.isEmpty then
      rep ++ replFuel pat rep f ((c :: cs).drop pat.length)
    else
      c :: replFuel pat rep f cs

/-- Python `s.replace(pat, rep)`. -/
def pyReplace (s pat rep : String) : String :=
  ⟨replFuel pat.data rep.data s.data.length s.data⟩

/-! ## DOM model and CSS selection

A parsed HTML fragment is a forest of nodes.  The selectors `scraper.py`
uses are either one simple `tag.class` step or a descendant pair
(`"p.selling_price span.figure"`), searched in document (pre)order as
BeautifulSoup `select_one` does. -/

/-- A DOM node: a text run or an element with tag, classes, attributes and
children. -/
inductive Node where
  | text (s : String)
  | elem (tag : String) (classes : List String) (attrs : List (String × String)) (children : List Node)

/-- One simple CSS step: a tag name and an optional required class. -/
structure SimpleSel where
  tag : String
  cls : Option String

/-- The selector shapes `scraper.py` uses. -/
inductive Selector where
  | simple (s : SimpleSel)
  | descendant (anc : SimpleSel) (des : SimpleSel)

/-- Does a node match a simple selector step? -/
def nodeMatches (s : SimpleSel) (n : Node) : Bool :=
  match n with
  | .text _ => false
  | .elem tag classes _ _ =>
    tag == s.tag && (match s.cls with | none => true | some c => classes.contains c)

mutual
/-- All descendant-or-self matches of a simple selector, in document order. -/
def collectM (sel : SimpleSel) : Node → List Node
  | .text _ => []
  | .elem t c a cs =>
    (if nodeMatches sel (.elem t c a cs) then [Node.elem t c a cs] else []) ++ collectMF sel cs
/-- `collectM` over a forest. -/
def collectMF (sel : SimpleSel) : List Node → List Node
  | [] => []
  | n :: ns => collectM sel n ++ collectMF sel ns
end

mutual
/-- All matches of `des` having a strict ancestor matching `anc`, in document
order; `under` records whether an ancestor matching `anc` has been passed. -/
def collectD (anc des : SimpleSel) (under : Bool) : Node → List Node
  | .text _ => []
  | .elem t c a cs =>
    (if under && nodeMatches des (.elem t c a cs) then [Node.elem t c a cs] else []) ++
      collectDF anc des (under || nodeMatches anc (.elem t c a cs)) cs
/-- `collectD` over a forest. -/
def collectDF (anc des : SimpleSel) (under : Bool) : List Node → List Node
  | [] => []
  | n :: ns => collectD anc des under n ++ collectDF anc des under ns
end

/-- BeautifulSoup `soup.select_one(sel)`: first match in document order. -/
def select_one (sel : Selector) (soup : List Node) : Option Node :=
  match sel with
  | .simple s => (collectMF s soup).head?
  | .descendant a d => (collectDF a d false soup).head?

mutual
/-- BeautifulSoup `el.get_text(strip=True)`: concatenation of the stripped
text runs below the node, in document order. -/
def get_text : Node → String
  | .text s => pyStrip s
  | .elem _ _ _ cs => get_text_forest cs
/-- `get_text` over a forest. -/
def get_text_forest : List Node → String
  | [] => ""
  | n :: ns => get_text n ++ get_text_forest ns
end

/-- Attribute lookup, `tag.get(key)` / `tag[key]` with `has_attr`. -/
def Node.attr : Node → String → Option String
  | .text _, _ => none
  | .elem _ _ attrs _, key => attrs.lookup key

/-- The attribute value when present and truthy (non-empty), else `none`:
Python `tag.has_attr(k) and tag[k]`. -/
def attrTruthy (n : Node) (key : String) : Option String :=
  match n.attr key with
  | some v => if v == "" then none else some v
  | none => none

/-! ## Parse helpers (`extract_text`, `extract_image_url`, `extract_product_id`,
`parse_listing_li` of `scraper.py`) -/

/-- `extract_text(soup, selector, default)` of `scraper.py`. -/
def extract_text (soup : List Node) (sel : Selector) (dflt : String) : String :=
  match select_one sel soup with
  | some el => get_text el
  | none => dflt

def goods_name_sel : Selector := .simple ⟨"span", some "goods_name"⟩

def selling_price_figure_sel : Selector :=
  .descendant ⟨"p", some "selling_price"⟩ ⟨"span", some "figure"⟩

def model_number_sel : Selector := .simple ⟨"span", some "model_number_value"⟩

def stock_sel : Selector := .simple ⟨"p", some "stock"⟩

def img_sel : Selector := .simple ⟨"img", none⟩

def open_modal_sel : Selector := .simple ⟨"input", some "open_modal_window_product_form"⟩

def item_data_sel : Selector := .simple ⟨"div", some "item_data"⟩

def item_data_link_sel : Selector := .simple ⟨"a", some "item_data_link"⟩

/-- `extract_image_url(soup)` of `scraper.py`:
`img.get("data-x2") or img.get("src", "") or ""`. -/
def extract_image_url (soup : List Node) : String :=
  match select_one img_sel soup with
  | none => ""
  | some img => (attrTruthy img "data-x2").getD ((img.attr "src").getD "")

/-- `extract_product_id(soup)` of `scraper.py`: `data-id` on the modal input,
then `data-product-id` on `div.item_data`, then the `/product/` path segment
of `a.item_data_link`. -/
def extract_product_id (soup : List Node) : String :=
  match (select_one open_modal_sel soup).bind (attrTruthy · "data-id") with
  | some v => pyStrip v
  | none =>
    match (select_one item_data_sel soup).bind (attrTruthy · "data-product-id") with
    | some v => pyStrip v
    | none =>
      match (select_one item_data_link_sel soup).bind (fun n => n.attr "href") with
      | some href =>
        if hasSub href.data "/product/".data then
          pyStrip ⟨beforeSub "?".data (beforeSub "/product/".data (afterSub "/product/".data href.data))⟩
        else ""
      | none => ""

/-- `parse_listing_li(li_html)` of `scraper.py`, on the parsed fragment. -/
def parse_listing_li (li : List Node) : List String :=
  let name_text := extract_text li goods_name_sel ""
  let price_text := extract_text li selling_price_figure_sel ""
  let pack_code := extract_text li model_number_sel ""
  let stock_text := pyReplace (extract_text li stock_sel "") "在庫数：" ""
  let image_url := extract_image_url li
  let product_id := extract_product_id li
  let product_url :=
    if product_id == "" then "" else "https://www.cardrush-pokemon.jp/product/detail/" ++ product_id
  [name_text, price_text, pack_code, stock_text, image_url, product_id, product_url]

/-! ## The CSV writer (`write_csv` of `scraper.py`) -/

/-- The `--csv-mode` write disciplines. -/
inductive CsvMode where
  | new
  | append
  | overwrite
deriving DecidableEq

/-- The fixed 7-column header written by `write_csv`. -/
def csvHeader : List String :=
  ["商品名", "価格", "パック番号", "在庫数", "画像URL", "商品ID", "商品URL"]

/-- `write_csv(path, rows, mode)`: the state of the file at `path` is
`none` (absent) or `some` list of CSV rows.  Returns the file state after the
call and whether `FileExistsError` was raised (raised before the file is
opened, so the content is untouched). -/
def write_csv (file : Option (List (List String))) (rows : List (List String)) (mode : CsvMode) :
    Option (List (List String)) × Bool :=
  match mode, file with
  | .new, some content => (some content, true)
  | .append, some content => (some (content ++ rows), false)
  | _, _ => (some (csvHeader :: rows), false)

/-- The discipline of the final write in `main`:
`mode="append" if args.csv_mode == "append" else "overwrite"`. -/
def finalWriteMode (csv_mode : CsvMode) : CsvMode :=
  if csv_mode = .append then .append else .overwrite

/-- The final write of the accumulated rows performed by `main` after
`scrape_pages` returns. -/
def mainFinalWrite (file : Option (List (List String))) (rows : List (List String))
    (csv_mode : CsvMode) : Option (List (List String)) × Bool :=
  write_csv file rows (finalWriteMode csv_mode)

/-! ## Accumulation with deduplication (`scrape_pages` lines 344-357) -/

/-- The dedup key: `row[5]`, the product ID field. -/
def rowPid (row : List String) : String := row.getD 5 ""

/-- One iteration of the item loop: skip the row when its product ID is
non-empty and already seen, else record the ID (when non-empty) and append
the row.  State is `(rows, seen_ids)`. -/
def addRow (st : List (List String) × List String) (row : List String) :
    List (List String) × List String :=
  let pid := rowPid row
  if pid != "" && st.2.contains pid then st
  else (st.1 ++ [row], if pid != "" then st.2 ++ [pid] else st.2)

/-- The item loop over one fetched page: parse each fragment and fold
`addRow`. -/
def addItems (st : List (List String) × List String) (its : List (List Node)) :
    List (List String) × List String :=
  its.foldl (fun acc it => addRow acc (parse_listing_li it)) st

/-- The rows accumulated over a sequence of fetched pages, processed in page
order then within-page DOM order, starting from empty `rows` and `seen_ids`. -/
def accumulate (pages : List (List (List Node))) : List (List String) :=
  (pages.foldl addItems ([], [])).1

/-- Specification-side recursion equivalent to the fold: keep a row unless
its non-empty product ID was already seen. -/
def keepFirst : List (List String) → List String → List (List String)
  | [], _ => []
  | row :: rest, seen =>
    let pid := rowPid row
    if pid != "" && seen.contains pid then keepFirst rest seen
    else row :: keepFirst rest (if pid != "" then seen ++ [pid] else seen)

/-! ## The crawl controller (`scrape_pages` of `scraper.py`)

The webdriver environment is an oracle: `fetch page attempt` is the outcome
of `driver.get(url)` plus the wait for `li.list_item_cell` on the given
attempt, and `jitter attempt` is the `random.uniform(0, 0.5)` draw added to
the backoff before that retry.  `discovered` is the result of
`discover_total_pages` when `--all-pages` is in effect.  Session recreation
(`make_driver`) is modelled as succeeding; a driver that is in fact unusable
surfaces as the next attempt failing, which the fetch oracle covers. -/

/-- Outcome of one `driver.get` + wait on a page.  A timeout with zero
`li.list_item_cell` elements raises `TimeoutException`; any other navigation
failure raises some other exception.  Both are caught by the same
`except Exception` handler in the code. -/
inductive FetchOutcome where
  | items (its : List (List Node))
  | timeoutNoItems
  | navError

/-- Does the outcome carry items (the `try` body reaches the item loop)? -/
def FetchOutcome.isItems : FetchOutcome → Bool
  | .items _ => true
  | _ => false

/-- The oracle for one run. -/
structure Env where
  fetch : Nat → Nat → FetchOutcome
  jitter : Nat → ℚ
  discovered : Nat

/-- The run configuration (the fields of `Args` that drive the crawl loop;
target/identity fields such as mode, group id, keyword, output path and
headful do not affect the control flow modelled here). -/
structure Args where
  start_page : Nat
  end_page : Option Nat
  all_pages : Bool
  csv_mode : CsvMode
  retry : Nat
  checkpoint_every : Nat
  reset_session_every : Nat

/-- Mutable crawl accumulators: the record rows, the seen product IDs, the
number of `driver.quit()` calls and the number of driver instances created
so far. -/
structure CrawlState where
  rows : List (List String)
  seen : List String
  destroys : Nat
  sessionGen : Nat

/-- Per-page observable trace: number of `driver.get` attempts, number of
failed attempts, the backoff delays slept before retries, whether the page
body succeeded, and whether the final skip message was logged. -/
structure PageTrace where
  page : Nat
  attempts : Nat
  failures : Nat
  backoffs : List ℚ
  succeeded : Bool
  skipLogged : Bool
deriving Inhabited

/-- The deterministic part of the retry backoff: `1.0 + 0.5 * attempt`. -/
def backoffBase (attempt : Nat) : ℚ := 1 + (1 / 2) * (attempt : ℚ)

/-- `processItems st its`: the `try` body after a successful wait — parse
every fragment, dedup, append. -/
def processItems (st : CrawlState) (its : List (List Node)) : CrawlState :=
  let p := addItems (st.rows, st.seen) its
  { st with rows := p.1, seen := p.2 }

/-- The per-page retry loop (`for attempt in range(1, args.retry + 2)`),
with `rem` attempts remaining and `attempt` the current 1-based attempt
number.  On success the loop breaks; on any exception the session is
destroyed, a backoff of `1.0 + 0.5 * attempt` plus jitter is slept, a fresh
session is created, and (when `attempt > retry`) the skip is logged. -/
def fetchAttempts (env : Env) (retry page : Nat) :
    Nat → Nat → CrawlState → PageTrace → CrawlState × PageTrace
  | 0, _, st, tr => (st, tr)
  | rem + 1, attempt, st, tr =>
    match env.fetch page attempt with
    | .items its =>
      (processItems st its, { tr with attempts := tr.attempts + 1, succeeded := true })
    | _ =>
      let st' := { st with destroys := st.destroys + 1, sessionGen := st.sessionGen + 1 }
      let tr' := { tr with
        attempts := tr.attempts + 1
        failures := tr.failures + 1
        backoffs := tr.backoffs ++ [backoffBase attempt + env.jitter attempt]
        skipLogged := tr.skipLogged || decide (retry < attempt) }
      fetchAttempts env retry page rem (attempt + 1) st' tr'

/-- One page of the crawl: run the retry loop from attempt 1 with
`1 + retry` attempts available. -/
def runPage (env : Env) (retry page : Nat) (st : CrawlState) : CrawlState × PageTrace :=
  fetchAttempts env retry page (retry + 1) 1 st
    { page := page, attempts := 0, failures := 0, backoffs := [], succeeded := false,
      skipLogged := false }

/-- One recorded checkpoint write. -/
structure Checkpoint where
  page : Nat
  written : List (List String)
  mode : CsvMode

/-- The whole-run state threaded through the page loop. -/
structure RunState where
  crawl : CrawlState
  nextCp : Nat
  traces : List PageTrace
  checkpoints : List Checkpoint

/-- The body of `for page in range(start_page, end_page + 1)`: optional
session reset housekeeping, the fetch-with-retry loop, then the checkpoint
test `page == next_checkpoint_at or (page - start_page + 1) %
checkpoint_every == 0` with an overwrite-mode write of all accumulated
rows. -/
def scrapeStep (env : Env) (a : Args) (s : Nat) (rs : RunState) (page : Nat) : RunState :=
  let c0 :=
    if a.reset_session_every ≠ 0 ∧ 0 < page - s ∧ (page - s) % a.reset_session_every = 0 then
      { rs.crawl with destroys := rs.crawl.destroys + 1, sessionGen := rs.crawl.sessionGen + 1 }
    else rs.crawl
  let pr := runPage env a.retry page c0
  let rs' := { rs with crawl := pr.1, traces := rs.traces ++ [pr.2] }
  if a.checkpoint_every ≠ 0 ∧ (page = rs.nextCp ∨ (page - s + 1) % a.checkpoint_every = 0) then
    { rs' with
      checkpoints := rs'.checkpoints ++ [⟨page, pr.1.rows, CsvMode.overwrite⟩]
      nextCp := page + a.checkpoint_every }
  else rs'

/-- Start and end page: auto-discovery sets `[1, discovered]`, otherwise
`[start_page, end_page or start_page]`. -/
def pageBounds (a : Args) (discovered : Nat) : Nat × Nat :=
  if a.all_pages then (1, discovered) else (a.start_page, a.end_page.getD a.start_page)

/-- The processed pages, `range(start_page, end_page + 1)`. -/
def pagesOf (a : Args) (discovered : Nat) : List Nat :=
  List.range' (pageBounds a discovered).1 ((pageBounds a discovered).2 + 1 - (pageBounds a discovered).1)

/-- Initial run state: empty accumulators, one driver already created by
`main`, and `next_checkpoint_at = start_page + (checkpoint_every or 0)`. -/
def initRun (a : Args) (s : Nat) : RunState :=
  { crawl := { rows := [], seen := [], destroys := 0, sessionGen := 1 }
    nextCp := s + a.checkpoint_every
    traces := []
    checkpoints := [] }

/-- `scrape_pages(args, driver, wait)`: fold the page body over the page
range. -/
def scrape_pages (env : Env) (a : Args) : RunState :=
  let s := (pageBounds a env.discovered).1
  (pagesOf a env.discovered).foldl (scrapeStep env a s) (initRun a s)

/-! ## Concrete fixtures used by witnesses and counterexamples -/

/-- A partial fragment with a name but no price sub-element. -/
def noPriceFrag : List Node :=
  [Node.elem "li" ["list_item_cell"] []
    [Node.elem "span" ["goods_name"] [] [Node.text "テストカード"]]]

/-- A fragment whose price sub-element holds thousand-separated text. -/
def priceFrag : List Node :=
  [Node.elem "li" ["list_item_cell"] []
    [Node.elem "p" ["selling_price"] []
      [Node.elem "span" ["figure"] [] [Node.text "1,234"]]]]

/-- The price sub-element of `priceFrag`. -/
def priceSpan : Node := Node.elem "span" ["figure"] [] [Node.text "1,234"]

/-- A minimal listing fragment whose product ID is read from
`div.item_data`. -/
def itemFrag (pid : String) : List Node :=
  [Node.elem "div" ["item_data"] [("data-product-id", pid)] []]

/-- Oracle for a three-page run: pages 1 and 2 yield one item each on every
attempt, page 3 always times out with zero listing items. -/
def c1Env : Env :=
  { fetch := fun page _ =>
      if page = 1 then .items [itemFrag "P1"]
      else if page = 2 then .items [itemFrag "P2"]
      else .timeoutNoItems
    jitter := fun _ => 0
    discovered := 3 }

/-- Non-auto three-page configuration with retry budget 2. -/
def c1Args : Args :=
  { start_page := 1, end_page := some 3, all_pages := false, csv_mode := CsvMode.new,
    retry := 2, checkpoint_every := 0, reset_session_every := 0 }

/-- Oracle whose every fetch fails with a navigation error. -/
def failEnv : Env :=
  { fetch := fun _ _ => .navError, jitter := fun _ => 0, discovered := 1 }

/-- A crawl state with empty accumulators. -/
def emptyCrawl : CrawlState := { rows := [], seen := [], destroys := 0, sessionGen := 1 }

/-- The invariant maintained for `next_checkpoint_at` at the start of the
iteration for page `p` of a run starting at `s` with interval `k`: either no
checkpoint has fired yet and `next` still has its initial value `s + k`
(with `p` not yet past it), or the last checkpoint fired at a page congruent
to a completed-count multiple and `next` points `k` past it. -/
def cpInv (s k p next : Nat) : Prop :=
  (next = s + k ∧ p < s + k) ∨
    (s ≤ next ∧ (next - s + 1) % k = 0 ∧ p ≤ next ∧ next < p + k)

/-! ## Theorems -/

/-- C4: `write_csv` with the `new` discipline on an existing destination
(in particular one that already has content) raises `FileExistsError` and
leaves the file content unchanged; on a non-existing destination it creates
the file with the header row followed by the given rows. -/
theorem write_csv_new_discipline (content rows : List (List String)) :
    write_csv (some content) rows CsvMode.new = (some content, true) ∧
    write_csv none rows CsvMode.new = (some (csvHeader :: rows), false) :=
  ⟨rfl, rfl⟩

/-- C5 counterexample: with configured discipline `new`, the final write in
`main` is performed with the `overwrite` discipline, not with `new`. -/
theorem finalWriteMode_new_is_overwrite :
    finalWriteMode CsvMode.new = CsvMode.overwrite ∧ CsvMode.overwrite ≠ CsvMode.new :=
  ⟨rfl, by decide⟩

/-- C5 (amended): the final write after the last page uses the `append`
discipline when the run is configured with `append`, and the `overwrite`
discipline otherwise — in particular a run configured with `new` performs
its final write with `overwrite`. -/
theorem finalWriteMode_mapping :
    finalWriteMode CsvMode.append = CsvMode.append ∧
    finalWriteMode CsvMode.overwrite = CsvMode.overwrite ∧
    finalWriteMode CsvMode.new = CsvMode.overwrite ∧
    ∀ file rows m, mainFinalWrite file rows m = write_csv file rows (finalWriteMode m) :=
  ⟨rfl, rfl, rfl, fun _ _ _ => rfl⟩

/-- C9: every record produced by the extractor is a list of exactly 7 string
fields in the fixed order name, price, pack code, stock, image URL, product
ID, product URL, matching the 7-column header one-for-one. -/
theorem parse_listing_li_shape (li : List Node) :
    (parse_listing_li li).length = csvHeader.length ∧
    csvHeader.length = 7 ∧
    parse_listing_li li =
      [extract_text li goods_name_sel "",
       extract_text li selling_price_figure_sel "",
       extract_text li model_number_sel "",
       pyReplace (extract_text li stock_sel "") "在庫数：" "",
       extract_image_url li,
       extract_product_id li,
       if extract_product_id li == "" then ""
       else "https://www.cardrush-pokemon.jp/product/detail/" ++ extract_product_id li] :=
  ⟨rfl, rfl, rfl⟩

/-- C6: the record extractor is total — on every fragment, including
malformed or partial ones, it returns a record; in particular on every
fragment with no price sub-element the price field is the defined default
sentinel, the empty string. -/
theorem parse_listing_li_default_price (li : List Node)
    (h : select_one selling_price_figure_sel li = none) :
    (parse_listing_li li).get? 1 = some "" := by
  simp [parse_listing_li, extract_text, h]

theorem parse_listing_li_default_price_witness :
    select_one selling_price_figure_sel noPriceFrag = none ∧
    (parse_listing_li noPriceFrag).get? 1 = some "" :=
  ⟨rfl, parse_listing_li_default_price noPriceFrag rfl⟩

/-- C7 counterexample: on a fragment whose price selector text is `1,234`,
the extracted price field is the raw text `1,234` — it still contains the
thousands separator and is not the separator-free integer numeral `1234`,
so no separator stripping or integer parsing happens. -/
theorem price_not_parsed :
    (parse_listing_li priceFrag).get? 1 = some "1,234" ∧
    ("1,234" : String) ≠ "1234" ∧
    ',' ∈ "1,234".data :=
  ⟨rfl, by decide, by decide⟩

/-- C7 (amended): for every fragment with a price sub-element, the extracted
price field is exactly the first matching selector's trimmed text, kept
verbatim as a string — no thousand-separator stripping and no integer
parsing is applied. -/
theorem price_field_raw_text (li : List Node) (el : Node)
    (h : select_one selling_price_figure_sel li = some el) :
    (parse_listing_li li).get? 1 = some (get_text el) := by
  simp [parse_listing_li, extract_text, h]

theorem price_field_raw_text_witness :
    select_one selling_price_figure_sel priceFrag = some priceSpan ∧
    (parse_listing_li priceFrag).get? 1 = some (get_text priceSpan) :=
  ⟨rfl, price_field_raw_text priceFrag priceSpan rfl⟩


theorem keepFirst_cons_skip (row : List String) (rest : List (List String)) (seen : List String)
    (h1 : rowPid row ≠ "") (h2 : rowPid row ∈ seen) :
    keepFirst (row :: rest) seen = keepFirst rest seen := by
  simp [keepFirst, h1, h2]

theorem keepFirst_cons_new (row : List String) (rest : List (List String)) (seen : List String)
    (h1 : rowPid row ≠ "") (h2 : rowPid row ∉ seen) :
    keepFirst (row :: rest) seen = row :: keepFirst rest (seen ++ [rowPid row]) := by
  simp [keepFirst, h1, h2]

theorem keepFirst_cons_anon (row : List String) (rest : List (List String)) (seen : List String)
    (h1 : rowPid row = "") :
    keepFirst (row :: rest) seen = row :: keepFirst rest seen := by
  simp [keepFirst, h1]

theorem addRow_skip (acc : List (List String)) (seen : List String) (row : List String)
    (h1 : rowPid row ≠ "") (h2 : rowPid row ∈ seen) :
    addRow (acc, seen) row = (acc, seen) := by
  simp [addRow, h1, h2]

theorem addRow_new (acc : List (List String)) (seen : List String) (row : List String)
    (h1 : rowPid row ≠ "") (h2 : rowPid row ∉ seen) :
    addRow (acc, seen) row = (acc ++ [row], seen ++ [rowPid row]) := by
  simp [addRow, h1, h2]

theorem addRow_anon (acc : List (List String)) (seen : List String) (row : List String)
    (h1 : rowPid row = "") :
    addRow (acc, seen) row = (acc ++ [row], seen) := by
  simp [addRow, h1]

theorem foldl_addRow_fst (l : List (List String)) :
    ∀ acc seen, (List.foldl addRow (acc, seen) l).1 = acc ++ keepFirst l seen := by
  induction l with
  | nil => intro acc seen; simp [keepFirst]
  | cons row rest ih =>
    intro acc seen
    rw [List.foldl_cons]
    rcases eq_or_ne (rowPid row) "" with h1 | h1
    · rw [addRow_anon acc seen row h1, keepFirst_cons_anon row rest seen h1, ih]
      simp
    · by_cases h2 : rowPid row ∈ seen
      · rw [addRow_skip acc seen row h1 h2, keepFirst_cons_skip row rest seen h1 h2, ih]
      · rw [addRow_new acc seen row h1 h2, keepFirst_cons_new row rest seen h1 h2, ih]
        simp

theorem keepFirst_sublist : ∀ (l : List (List String)) (seen : List String),
    List.Sublist (keepFirst l seen) l := by
  intro l
  induction l with
  | nil => intro seen; simp [keepFirst]
  | cons row rest ih =>
    intro seen
    rcases eq_or_ne (rowPid row) "" with h1 | h1
    · rw [keepFirst_cons_anon row rest seen h1]
      exact (ih seen).cons₂ row
    · by_cases h2 : rowPid row ∈ seen
      · rw [keepFirst_cons_skip row rest seen h1 h2]
        exact (ih seen).cons row
      · rw [keepFirst_cons_new row rest seen h1 h2]
        exact (ih _).cons₂ row

theorem keepFirst_filter_of_seen (p : String) (hp : p ≠ "") :
    ∀ (l : List (List String)) (seen : List String), p ∈ seen →
      (keepFirst l seen).filter (fun r => rowPid r == p) = [] := by
  intro l
  induction l with
  | nil => intro seen _; simp [keepFirst]
  | cons row rest ih =>
    intro seen hmem
    rcases eq_or_ne (rowPid row) "" with h1 | h1
    · rw [keepFirst_cons_anon row rest seen h1,
        List.filter_cons_of_neg (by simp [h1]; intro hc; rw [hc] at hp; simp at hp)]
      exact ih seen hmem
    · by_cases h2 : rowPid row ∈ seen
      · rw [keepFirst_cons_skip row rest seen h1 h2]
        exact ih seen hmem
      · have hne : rowPid row ≠ p := fun hc => h2 (hc ▸ hmem)
        rw [keepFirst_cons_new row rest seen h1 h2,
          List.filter_cons_of_neg (by simp [hne])]
        exact ih _ (by simp [hmem])

theorem keepFirst_filter_first (p : String) (hp : p ≠ "") :
    ∀ (l : List (List String)) (seen : List String), p ∉ seen →
      (keepFirst l seen).filter (fun r => rowPid r == p) =
        (l.filter (fun r => rowPid r == p)).take 1 := by
  intro l
  induction l with
  | nil => intro seen _; simp [keepFirst]
  | cons row rest ih =>
    intro seen hmem
    rcases eq_or_ne (rowPid row) "" with h1 | h1
    · have hne : rowPid row ≠ p := fun hc => hp (hc ▸ h1)
      rw [keepFirst_cons_anon row rest seen h1,
        List.filter_cons_of_neg (by simp [hne]),
        List.filter_cons_of_neg (by simp [hne])]
      exact ih seen hmem
    · by_cases h2 : rowPid row ∈ seen
      · have hne : rowPid row ≠ p := fun hc => hmem (hc ▸ h2)
        rw [keepFirst_cons_skip row rest seen h1 h2,
          List.filter_cons_of_neg (by simp [hne])]
        exact ih seen hmem
      · rcases eq_or_ne (rowPid row) p with he | hne
        · rw [keepFirst_cons_new row rest seen h1 h2,
            List.filter_cons_of_pos (by simp [he]),
            List.filter_cons_of_pos (by simp [he])]
          rw [List.take_succ_cons, List.take_zero]
          rw [keepFirst_filter_of_seen p hp rest _ (by simp [he])]
        · rw [keepFirst_cons_new row rest seen h1 h2,
            List.filter_cons_of_neg (by simp [hne]),
            List.filter_cons_of_neg (by simp [hne])]
          refine ih _ ?_
          simp [hmem]
          exact fun hc => hne hc.symm

theorem keepFirst_filter_anon :
    ∀ (l : List (List String)) (seen : List String),
      (keepFirst l seen).filter (fun r => rowPid r == "") =
        l.filter (fun r => rowPid r == "") := by
  intro l
  induction l with
  | nil => intro seen; simp [keepFirst]
  | cons row rest ih =>
    intro seen
    rcases eq_or_ne (rowPid row) "" with h1 | h1
    · rw [keepFirst_cons_anon row rest seen h1,
        List.filter_cons_of_pos (by simp [h1]),
        List.filter_cons_of_pos (by simp [h1]), ih]
    · by_cases h2 : rowPid row ∈ seen
      · rw [keepFirst_cons_skip row rest seen h1 h2,
          List.filter_cons_of_neg (by simp [h1])]
        exact ih seen
      · rw [keepFirst_cons_new row rest seen h1 h2,
          List.filter_cons_of_neg (by simp [h1]),
          List.filter_cons_of_neg (by simp [h1])]
        exact ih _

theorem accumulate_eq_keepFirst (pages : List (List (List Node))) :
    accumulate pages = keepFirst (pages.flatten.map parse_listing_li) [] := by
  unfold accumulate addItems
  rw [← List.foldl_flatten]
  rw [show pages.flatten.foldl (fun acc it => addRow acc (parse_listing_li it))
        (([], []) : List (List String) × List String) =
      (pages.flatten.map parse_listing_li).foldl addRow ([], []) from
    (List.foldl_map parse_listing_li addRow pages.flatten ([], [])).symm]
  rw [foldl_addRow_fst]
  simp

/-- C2: over every sequence of fetched pages, processed page-ascending then
in DOM order, the accumulated record sequence is a subsequence of the parsed
rows (so kept records appear in first-seen order); for each non-empty
product ID it contains exactly the first row carrying that ID; and every row
with an empty product ID is kept, never deduplicated. -/
theorem dedup_first_seen (pages : List (List (List Node))) (p : String) :
    List.Sublist (accumulate pages) (pages.flatten.map parse_listing_li) ∧
    (p ≠ "" → (accumulate pages).filter (fun r => rowPid r == p) =
      ((pages.flatten.map parse_listing_li).filter (fun r => rowPid r == p)).take 1) ∧
    (accumulate pages).filter (fun r => rowPid r == "") =
      (pages.flatten.map parse_listing_li).filter (fun r => rowPid r == "") := by
  rw [accumulate_eq_keepFirst]
  refine ⟨keepFirst_sublist _ _, ?_, keepFirst_filter_anon _ _⟩
  intro hp
  exact keepFirst_filter_first p hp _ _ (by simp)

theorem dedup_first_seen_witness :
    List.Sublist (accumulate [[itemFrag "A1"], [itemFrag "A1"]])
      (([[itemFrag "A1"], [itemFrag "A1"]] : List (List (List Node))).flatten.map
        parse_listing_li) ∧
    (accumulate [[itemFrag "A1"], [itemFrag "A1"]]).filter (fun r => rowPid r == "A1") =
      ((([[itemFrag "A1"], [itemFrag "A1"]] : List (List (List Node))).flatten.map
        parse_listing_li).filter (fun r => rowPid r == "A1")).take 1 ∧
    (accumulate [[itemFrag "A1"], [itemFrag "A1"]]).filter (fun r => rowPid r == "") =
      (([[itemFrag "A1"], [itemFrag "A1"]] : List (List (List Node))).flatten.map
        parse_listing_li).filter (fun r => rowPid r == "") := by
  have h := dedup_first_seen [[itemFrag "A1"], [itemFrag "A1"]] "A1"
  exact ⟨h.1, h.2.1 (by decide), h.2.2⟩

/-! ### The per-page retry loop (C1, C3) -/

theorem processItems_spec (st : CrawlState) (its : List (List Node)) :
    (processItems st its).rows = st.rows ++ keepFirst (its.map parse_listing_li) st.seen ∧
    (processItems st its).destroys = st.destroys ∧
    (processItems st its).sessionGen = st.sessionGen := by
  refine ⟨?_, rfl, rfl⟩
  show (addItems (st.rows, st.seen) its).1 = _
  unfold addItems
  rw [show its.foldl (fun acc it => addRow acc (parse_listing_li it)) (st.rows, st.seen) =
      (its.map parse_listing_li).foldl addRow (st.rows, st.seen) from
    (List.foldl_map parse_listing_li addRow its (st.rows, st.seen)).symm]
  rw [foldl_addRow_fst]

theorem fetchAttempts_page (env : Env) (retry page : Nat) :
    ∀ rem attempt st tr, ((fetchAttempts env retry page rem attempt st tr).2).page = tr.page := by
  intro rem
  induction rem with
  | zero => intro attempt st tr; rfl
  | succ m ih =>
    intro attempt st tr
    cases hf : env.fetch page attempt with
    | items its => simp [fetchAttempts, hf]
    | timeoutNoItems => simp only [fetchAttempts, hf]; rw [ih]
    | navError => simp only [fetchAttempts, hf]; rw [ih]

theorem fetchAttempts_attempts_le (env : Env) (retry page : Nat) :
    ∀ rem attempt st tr,
      ((fetchAttempts env retry page rem attempt st tr).2).attempts ≤ tr.attempts + rem := by
  intro rem
  induction rem with
  | zero => intro attempt st tr; simp [fetchAttempts]
  | succ m ih =>
    intro attempt st tr
    cases hf : env.fetch page attempt with
    | items its => simp [fetchAttempts, hf]
    | timeoutNoItems =>
      simp only [fetchAttempts, hf]
      refine le_trans (ih _ _ _) ?_
      dsimp only
      omega
    | navError =>
      simp only [fetchAttempts, hf]
      refine le_trans (ih _ _ _) ?_
      dsimp only
      omega

theorem fetchAttempts_accounting (env : Env) (retry page : Nat) :
    ∀ rem attempt st tr, ∃ d, d ≤ rem ∧
      ((fetchAttempts env retry page rem attempt st tr).2).failures = tr.failures + d ∧
      ((fetchAttempts env retry page rem attempt st tr).1).destroys = st.destroys + d ∧
      ((fetchAttempts env retry page rem attempt st tr).1).sessionGen = st.sessionGen + d ∧
      ((fetchAttempts env retry page rem attempt st tr).2).backoffs =
        tr.backoffs ++ (List.range' attempt d).map (fun i => backoffBase i + env.jitter i) ∧
      ∃ t, ((fetchAttempts env retry page rem attempt st tr).1).rows = st.rows ++ t := by
  intro rem
  induction rem with
  | zero =>
    intro attempt st tr
    exact ⟨0, by simp [fetchAttempts]⟩
  | succ m ih =>
    intro attempt st tr
    cases hf : env.fetch page attempt with
    | items its =>
      refine ⟨0, by omega, ?_⟩
      have hp := processItems_spec st its
      simp [fetchAttempts, hf, hp.1, hp.2.1, hp.2.2]
    | timeoutNoItems =>
      obtain ⟨d, hd, h1, h2, h3, h4, t, h5⟩ := ih (attempt + 1)
        { st with destroys := st.destroys + 1, sessionGen := st.sessionGen + 1 }
        { page := tr.page, attempts := tr.attempts + 1, failures := tr.failures + 1,
          backoffs := tr.backoffs ++ [backoffBase attempt + env.jitter attempt],
          succeeded := tr.succeeded, skipLogged := tr.skipLogged || decide (retry < attempt) }
      refine ⟨d + 1, by omega, ?_, ?_, ?_, ?_, t, ?_⟩
      · simp only [fetchAttempts, hf]; rw [h1]; dsimp only; omega
      · simp only [fetchAttempts, hf]; rw [h2]; dsimp only; omega
      · simp only [fetchAttempts, hf]; rw [h3]; dsimp only; omega
      · simp only [fetchAttempts, hf]; rw [h4, List.range'_succ, List.map_cons]
        simp
      · simp only [fetchAttempts, hf]; rw [h5]
    | navError =>
      obtain ⟨d, hd, h1, h2, h3, h4, t, h5⟩ := ih (attempt + 1)
        { st with destroys := st.destroys + 1, sessionGen := st.sessionGen + 1 }
        { page := tr.page, attempts := tr.attempts + 1, failures := tr.failures + 1,
          backoffs := tr.backoffs ++ [backoffBase attempt + env.jitter attempt],
          succeeded := tr.succeeded, skipLogged := tr.skipLogged || decide (retry < attempt) }
      refine ⟨d + 1, by omega, ?_, ?_, ?_, ?_, t, ?_⟩
      · simp only [fetchAttempts, hf]; rw [h1]; dsimp only; omega
      · simp only [fetchAttempts, hf]; rw [h2]; dsimp only; omega
      · simp only [fetchAttempts, hf]; rw [h3]; dsimp only; omega
      · simp only [fetchAttempts, hf]; rw [h4, List.range'_succ, List.map_cons]
        simp
      · simp only [fetchAttempts, hf]; rw [h5]

theorem fetchAttempts_all_fail (env : Env) (retry page : Nat) :
    ∀ rem attempt st tr,
      (∀ a, attempt ≤ a → a < attempt + rem → (env.fetch page a).isItems = false) →
      ((fetchAttempts env retry page rem attempt st tr).1).rows = st.rows ∧
      ((fetchAttempts env retry page rem attempt st tr).1).destroys = st.destroys + rem ∧
      ((fetchAttempts env retry page rem attempt st tr).2).attempts = tr.attempts + rem ∧
      ((fetchAttempts env retry page rem attempt st tr).2).failures = tr.failures + rem ∧
      ((fetchAttempts env retry page rem attempt st tr).2).succeeded = tr.succeeded := by
  intro rem
  induction rem with
  | zero =>
    intro attempt st tr _
    simp [fetchAttempts]
  | succ m ih =>
    intro attempt st tr h
    have hfail := h attempt (le_refl attempt) (by omega)
    cases hf : env.fetch page attempt with
    | items its => rw [hf] at hfail; simp [FetchOutcome.isItems] at hfail
    | timeoutNoItems =>
      have step := ih (attempt + 1)
        { st with destroys := st.destroys + 1, sessionGen := st.sessionGen + 1 }
        { page := tr.page, attempts := tr.attempts + 1, failures := tr.failures + 1,
          backoffs := tr.backoffs ++ [backoffBase attempt + env.jitter attempt],
          succeeded := tr.succeeded, skipLogged := tr.skipLogged || decide (retry < attempt) }
        (fun a ha1 ha2 => h a (by omega) (by omega))
      simp only [fetchAttempts, hf]
      refine ⟨step.1, ?_, ?_, ?_, step.2.2.2.2⟩
      · rw [step.2.1]; dsimp only; omega
      · rw [step.2.2.1]; dsimp only; omega
      · rw [step.2.2.2.1]; dsimp only; omega
    | navError =>
      have step := ih (attempt + 1)
        { st with destroys := st.destroys + 1, sessionGen := st.sessionGen + 1 }
        { page := tr.page, attempts := tr.attempts + 1, failures := tr.failures + 1,
          backoffs := tr.backoffs ++ [backoffBase attempt + env.jitter attempt],
          succeeded := tr.succeeded, skipLogged := tr.skipLogged || decide (retry < attempt) }
        (fun a ha1 ha2 => h a (by omega) (by omega))
      simp only [fetchAttempts, hf]
      refine ⟨step.1, ?_, ?_, ?_, step.2.2.2.2⟩
      · rw [step.2.1]; dsimp only; omega
      · rw [step.2.2.1]; dsimp only; omega
      · rw [step.2.2.2.1]; dsimp only; omega

theorem fetchAttempts_skipLogged_mono (env : Env) (retry page : Nat) :
    ∀ rem attempt st tr, tr.skipLogged = true →
      ((fetchAttempts env retry page rem attempt st tr).2).skipLogged = true := by
  intro rem
  induction rem with
  | zero => intro attempt st tr h; simpa [fetchAttempts] using h
  | succ m ih =>
    intro attempt st tr h
    cases hf : env.fetch page attempt with
    | items its => simpa [fetchAttempts, hf] using h
    | timeoutNoItems =>
      simp only [fetchAttempts, hf]
      exact ih _ _ _ (by simp [h])
    | navError =>
      simp only [fetchAttempts, hf]
      exact ih _ _ _ (by simp [h])

theorem fetchAttempts_skipLogged_of_late_fail (env : Env) (retry page : Nat) :
    ∀ rem attempt st tr aw, attempt ≤ aw → aw < attempt + rem → retry < aw →
      (∀ a, attempt ≤ a → a < attempt + rem → (env.fetch page a).isItems = false) →
      ((fetchAttempts env retry page rem attempt st tr).2).skipLogged = true := by
  intro rem
  induction rem with
  | zero => intro attempt st tr aw h1 h2; omega
  | succ m ih =>
    intro attempt st tr aw h1 h2 h3 h
    have hfail := h attempt (le_refl attempt) (by omega)
    cases hf : env.fetch page attempt with
    | items its => rw [hf] at hfail; simp [FetchOutcome.isItems] at hfail
    | timeoutNoItems =>
      simp only [fetchAttempts, hf]
      rcases eq_or_lt_of_le h1 with he | hlt
      · refine fetchAttempts_skipLogged_mono env retry page _ _ _ _ ?_
        subst he
        simp [h3]
      · exact ih (attempt + 1) _ _ aw hlt (by omega) h3
          (fun a ha1 ha2 => h a (by omega) (by omega))
    | navError =>
      simp only [fetchAttempts, hf]
      rcases eq_or_lt_of_le h1 with he | hlt
      · refine fetchAttempts_skipLogged_mono env retry page _ _ _ _ ?_
        subst he
        simp [h3]
      · exact ih (attempt + 1) _ _ aw hlt (by omega) h3
          (fun a ha1 ha2 => h a (by omega) (by omega))

theorem runPage_page (env : Env) (retry page : Nat) (st : CrawlState) :
    ((runPage env retry page st).2).page = page := by
  unfold runPage
  rw [fetchAttempts_page]

theorem backoff_lt (env : Env) (hj : ∀ a, 0 ≤ env.jitter a ∧ env.jitter a < 1 / 2) (a : Nat) :
    backoffBase a + env.jitter a < backoffBase (a + 1) + env.jitter (a + 1) := by
  have h1 := (hj a).2
  have h2 := (hj (a + 1)).1
  unfold backoffBase
  push_cast
  linarith

theorem chain_lt_map_range' (g : Nat → ℚ) (h : ∀ a, g a < g (a + 1)) :
    ∀ (n i : Nat), List.Chain' (· < ·) ((List.range' i n).map g) := by
  intro n
  induction n with
  | zero => intro i; simp
  | succ m ih =>
    intro i
    rw [List.range'_succ, List.map_cons]
    rw [List.chain'_cons']
    refine ⟨?_, ih (i + 1)⟩
    intro y hy
    cases m with
    | zero => simp at hy
    | succ k =>
      rw [List.range'_succ, List.map_cons, List.head?_cons] at hy
      simp only [Option.mem_def, Option.some.injEq] at hy
      rw [← hy]
      exact h i

/-! ### The page loop (traces, checkpoints) -/

theorem scrapeStep_traces (env : Env) (a : Args) (s : Nat) (rs : RunState) (page : Nat) :
    ∃ tr : PageTrace, (scrapeStep env a s rs page).traces = rs.traces ++ [tr] ∧ tr.page = page := by
  unfold scrapeStep
  dsimp only
  split
  · exact ⟨_, rfl, runPage_page env a.retry page _⟩
  · exact ⟨_, rfl, runPage_page env a.retry page _⟩

theorem foldl_traces (env : Env) (a : Args) (s : Nat) :
    ∀ (l : List Nat) (rs : RunState),
      ((l.foldl (scrapeStep env a s) rs).traces).map PageTrace.page =
        (rs.traces.map PageTrace.page) ++ l := by
  intro l
  induction l with
  | nil => intro rs; simp
  | cons p rest ih =>
    intro rs
    rw [List.foldl_cons, ih]
    obtain ⟨tr, htr, hpage⟩ := scrapeStep_traces env a s rs p
    rw [htr]
    simp [hpage]

theorem scrape_traces (env : Env) (a : Args) :
    (scrape_pages env a).traces.map PageTrace.page = pagesOf a env.discovered := by
  unfold scrape_pages
  rw [foldl_traces]
  simp [initRun, pagesOf]

/-- C3: for every page the controller makes at most `1 + retry` fetch
attempts; every failed attempt destroys the current session
(`driver.quit`), creates a fresh one (`make_driver`, so the session
generation advances once per failure), and sleeps a backoff
`1.0 + 0.5 * attempt` plus jitter that strictly increases with the attempt
number; when every attempt in the budget fails the page is skipped — no
rows are added, the failure is logged — and the run still processes every
page of the range rather than aborting. -/
theorem retry_policy (env : Env) (retry page : Nat) (st : CrawlState)
    (hj : ∀ a, 0 ≤ env.jitter a ∧ env.jitter a < 1 / 2) :
    ((runPage env retry page st).2).attempts ≤ 1 + retry ∧
    ((runPage env retry page st).1).destroys =
      st.destroys + ((runPage env retry page st).2).failures ∧
    ((runPage env retry page st).1).sessionGen =
      st.sessionGen + ((runPage env retry page st).2).failures ∧
    ((runPage env retry page st).2).backoffs =
      (List.range' 1 ((runPage env retry page st).2).failures).map
        (fun i => backoffBase i + env.jitter i) ∧
    List.Chain' (· < ·) ((runPage env retry page st).2).backoffs ∧
    ((∀ a, 1 ≤ a → a ≤ retry + 1 → (env.fetch page a).isItems = false) →
      ((runPage env retry page st).1).rows = st.rows ∧
      ((runPage env retry page st).2).succeeded = false ∧
      ((runPage env retry page st).2).attempts = retry + 1 ∧
      ((runPage env retry page st).2).skipLogged = true) ∧
    ∀ a : Args, (scrape_pages env a).traces.map PageTrace.page = pagesOf a env.discovered := by
  unfold runPage
  obtain ⟨d, hd, h1, h2, h3, h4, t, h5⟩ := fetchAttempts_accounting env retry page (retry + 1) 1 st
    { page := page, attempts := 0, failures := 0, backoffs := [], succeeded := false,
      skipLogged := false }
  dsimp only at h1 h2 h3 h4 h5
  refine ⟨?_, ?_, ?_, ?_, ?_, ?_, scrape_traces env⟩
  · have := fetchAttempts_attempts_le env retry page (retry + 1) 1 st
      { page := page, attempts := 0, failures := 0, backoffs := [], succeeded := false,
        skipLogged := false }
    dsimp only at this
    omega
  · omega
  · omega
  · rw [h4, h1]
    simp
  · rw [h4]
    simpa using chain_lt_map_range' (fun i => backoffBase i + env.jitter i)
      (backoff_lt env hj) d 1
  · intro h
    have hfail : ∀ a, 1 ≤ a → a < 1 + (retry + 1) → (env.fetch page a).isItems = false :=
      fun a ha1 ha2 => h a ha1 (by omega)
    have hall := fetchAttempts_all_fail env retry page (retry + 1) 1 st
      { page := page, attempts := 0, failures := 0, backoffs := [], succeeded := false,
        skipLogged := false } hfail
    dsimp only at hall
    refine ⟨hall.1, hall.2.2.2.2, ?_, ?_⟩
    · rw [hall.2.2.1]
      omega
    · exact fetchAttempts_skipLogged_of_late_fail env retry page (retry + 1) 1 st _
        (retry + 1) (by omega) (by omega) (by omega) hfail

theorem retry_policy_witness :
    (∀ a, (0 : ℚ) ≤ failEnv.jitter a ∧ failEnv.jitter a < 1 / 2) ∧
    (((runPage failEnv 2 1 emptyCrawl).2).attempts ≤ 1 + 2 ∧
     ((runPage failEnv 2 1 emptyCrawl).1).destroys =
       emptyCrawl.destroys + ((runPage failEnv 2 1 emptyCrawl).2).failures ∧
     ((runPage failEnv 2 1 emptyCrawl).1).sessionGen =
       emptyCrawl.sessionGen + ((runPage failEnv 2 1 emptyCrawl).2).failures ∧
     ((runPage failEnv 2 1 emptyCrawl).2).backoffs =
       (List.range' 1 ((runPage failEnv 2 1 emptyCrawl).2).failures).map
         (fun i => backoffBase i + failEnv.jitter i) ∧
     List.Chain' (· < ·) ((runPage failEnv 2 1 emptyCrawl).2).backoffs ∧
     ((∀ a, 1 ≤ a → a ≤ 2 + 1 → (failEnv.fetch 1 a).isItems = false) →
       ((runPage failEnv 2 1 emptyCrawl).1).rows = emptyCrawl.rows ∧
       ((runPage failEnv 2 1 emptyCrawl).2).succeeded = false ∧
       ((runPage failEnv 2 1 emptyCrawl).2).attempts = 2 + 1 ∧
       ((runPage failEnv 2 1 emptyCrawl).2).skipLogged = true) ∧
     ∀ a : Args, (scrape_pages failEnv a).traces.map PageTrace.page =
       pagesOf a failEnv.discovered) := by
  have hj : ∀ a, (0 : ℚ) ≤ failEnv.jitter a ∧ failEnv.jitter a < 1 / 2 :=
    fun a => ⟨le_refl 0, show (0 : ℚ) < 1 / 2 by norm_num⟩
  exact ⟨hj, retry_policy failEnv 2 1 emptyCrawl hj⟩

/-- C1 counterexample: in the three-page run of `c1Env` with retry budget 2,
page 3 always times out with zero listing items, yet the controller makes
3 fetch attempts for it (so retries do happen) and the session is destroyed
3 times (so the session is not preserved) — a `NoItems` timeout is handled
by the retry machinery, not treated as an empty page that the run proceeds
past without retrying. -/
theorem noitems_retried_counterexample :
    c1Env.fetch 3 1 = FetchOutcome.timeoutNoItems ∧
    ((scrape_pages c1Env c1Args).traces.getD 2 default).attempts = 3 ∧
    ((scrape_pages c1Env c1Args).traces.getD 2 default).attempts ≠ 1 ∧
    (scrape_pages c1Env c1Args).crawl.destroys = 3 ∧
    (scrape_pages c1Env c1Args).crawl.destroys ≠ 0 := by
  refine ⟨rfl, by decide, by decide, by decide, by decide⟩

/-- C1 (amended): a fetch that times out with zero listing items raises the
same exception path as any fetch error, so the page is retried with session
destruction up to the full budget of `1 + retry` attempts; after the budget
is exhausted the page is skipped (logged, contributing no records) and the
run continues through every page of the range, completing non-fatally with
only the records accumulated from the other pages. -/
theorem noitems_treated_as_fetch_error (env : Env) (retry page : Nat) (st : CrawlState)
    (h : ∀ a, env.fetch page a = FetchOutcome.timeoutNoItems) :
    ((runPage env retry page st).2).attempts = retry + 1 ∧
    ((runPage env retry page st).2).failures = retry + 1 ∧
    ((runPage env retry page st).1).destroys = st.destroys + (retry + 1) ∧
    ((runPage env retry page st).1).rows = st.rows ∧
    ((runPage env retry page st).2).succeeded = false ∧
    ((runPage env retry page st).2).skipLogged = true ∧
    ∀ a : Args, (scrape_pages env a).traces.map PageTrace.page = pagesOf a env.discovered := by
  unfold runPage
  have hfail : ∀ a, 1 ≤ a → a < 1 + (retry + 1) → (env.fetch page a).isItems = false := by
    intro a _ _
    rw [h a]
    rfl
  have hall := fetchAttempts_all_fail env retry page (retry + 1) 1 st
    { page := page, attempts := 0, failures := 0, backoffs := [], succeeded := false,
      skipLogged := false } hfail
  dsimp only at hall
  refine ⟨?_, ?_, ?_, hall.1, hall.2.2.2.2, ?_, scrape_traces env⟩
  · rw [hall.2.2.1]
    omega
  · rw [hall.2.2.2.1]
    omega
  · rw [hall.2.1]
  · exact fetchAttempts_skipLogged_of_late_fail env retry page (retry + 1) 1 st _
      (retry + 1) (by omega) (by omega) (by omega) hfail

theorem noitems_treated_as_fetch_error_witness :
    (∀ a, c1Env.fetch 3 a = FetchOutcome.timeoutNoItems) ∧
    (((runPage c1Env 2 3 emptyCrawl).2).attempts = 2 + 1 ∧
     ((runPage c1Env 2 3 emptyCrawl).2).failures = 2 + 1 ∧
     ((runPage c1Env 2 3 emptyCrawl).1).destroys = emptyCrawl.destroys + (2 + 1) ∧
     ((runPage c1Env 2 3 emptyCrawl).1).rows = emptyCrawl.rows ∧
     ((runPage c1Env 2 3 emptyCrawl).2).succeeded = false ∧
     ((runPage c1Env 2 3 emptyCrawl).2).skipLogged = true ∧
     ∀ a : Args, (scrape_pages c1Env a).traces.map PageTrace.page =
       pagesOf a c1Env.discovered) := by
  have h : ∀ a, c1Env.fetch 3 a = FetchOutcome.timeoutNoItems := fun a => rfl
  exact ⟨h, noitems_treated_as_fetch_error c1Env 2 3 emptyCrawl h⟩

/-! ### Checkpoint schedule (C8) -/

theorem scrapeStep_cp_pos (env : Env) (a : Args) (s : Nat) (rs : RunState) (page : Nat)
    (hc : a.checkpoint_every ≠ 0 ∧
      (page = rs.nextCp ∨ (page - s + 1) % a.checkpoint_every = 0)) :
    (scrapeStep env a s rs page).checkpoints =
      rs.checkpoints ++ [⟨page, (scrapeStep env a s rs page).crawl.rows, CsvMode.overwrite⟩] ∧
    (scrapeStep env a s rs page).nextCp = page + a.checkpoint_every := by
  unfold scrapeStep
  dsimp only
  rw [if_pos hc]
  exact ⟨rfl, rfl⟩

theorem scrapeStep_cp_neg (env : Env) (a : Args) (s : Nat) (rs : RunState) (page : Nat)
    (hc : ¬(a.checkpoint_every ≠ 0 ∧
      (page = rs.nextCp ∨ (page - s + 1) % a.checkpoint_every = 0))) :
    (scrapeStep env a s rs page).checkpoints = rs.checkpoints ∧
    (scrapeStep env a s rs page).nextCp = rs.nextCp := by
  unfold scrapeStep
  dsimp only
  rw [if_neg hc]
  exact ⟨rfl, rfl⟩

theorem runPage_rows (env : Env) (retry page : Nat) (st : CrawlState) :
    ∃ t, (runPage env retry page st).1.rows = st.rows ++ t := by
  unfold runPage
  obtain ⟨d, _, _, _, _, _, t, h5⟩ := fetchAttempts_accounting env retry page (retry + 1) 1 st
    { page := page, attempts := 0, failures := 0, backoffs := [], succeeded := false,
      skipLogged := false }
  exact ⟨t, h5⟩

theorem scrapeStep_rows (env : Env) (a : Args) (s : Nat) (rs : RunState) (page : Nat) :
    ∃ t, (scrapeStep env a s rs page).crawl.rows = rs.crawl.rows ++ t := by
  unfold scrapeStep
  dsimp only
  split <;> split <;> exact runPage_rows env a.retry page _

theorem scrapeStep_cp_preserve (env : Env) (a : Args) (s : Nat) (rs : RunState) (page : Nat)
    (h1 : ∀ c ∈ rs.checkpoints, c.mode = CsvMode.overwrite ∧
      ∃ t, rs.crawl.rows = c.written ++ t)
    (h2 : List.Chain' (· ≤ ·) (rs.checkpoints.map fun c => c.written.length)) :
    (∀ c ∈ (scrapeStep env a s rs page).checkpoints,
        c.mode = CsvMode.overwrite ∧
        ∃ t, (scrapeStep env a s rs page).crawl.rows = c.written ++ t) ∧
    List.Chain' (· ≤ ·)
      ((scrapeStep env a s rs page).checkpoints.map fun c => c.written.length) := by
  obtain ⟨t0, hrow⟩ := scrapeStep_rows env a s rs page
  by_cases hcp : (a.checkpoint_every ≠ 0 ∧
      (page = rs.nextCp ∨ (page - s + 1) % a.checkpoint_every = 0))
  · obtain ⟨hcps, _⟩ := scrapeStep_cp_pos env a s rs page hcp
    constructor
    · intro c hc
      rw [hcps] at hc
      rcases List.mem_append.1 hc with hold | hnew
      · obtain ⟨hm, t, ht⟩ := h1 c hold
        exact ⟨hm, t ++ t0, by rw [hrow, ht, List.append_assoc]⟩
      · rw [List.mem_singleton.1 hnew]
        exact ⟨rfl, [], by simp⟩
    · rw [hcps, List.map_append]
      refine List.chain'_append.2 ⟨h2, by simp, ?_⟩
      intro x hx y hy
      simp only [List.map_cons, List.map_nil, List.head?_cons, Option.mem_def,
        Option.some.injEq] at hy
      rw [List.getLast?_map, Option.mem_def, Option.map_eq_some'] at hx
      obtain ⟨c, hc, hxc⟩ := hx
      obtain ⟨hne, hcl⟩ := List.mem_getLast?_eq_getLast hc
      have hcm : c ∈ rs.checkpoints := hcl ▸ List.getLast_mem hne
      obtain ⟨_, t, ht⟩ := h1 c hcm
      subst hxc
      rw [← hy, hrow, ht]
      simp
  · obtain ⟨hcps, _⟩ := scrapeStep_cp_neg env a s rs page hcp
    rw [hcps]
    refine ⟨?_, h2⟩
    intro c hc
    obtain ⟨hm, t, ht⟩ := h1 c hc
    exact ⟨hm, t ++ t0, by rw [hrow, ht, List.append_assoc]⟩

theorem foldl_cp_preserve (env : Env) (a : Args) (s : Nat) :
    ∀ (l : List Nat) (rs : RunState),
      (∀ c ∈ rs.checkpoints, c.mode = CsvMode.overwrite ∧
        ∃ t, rs.crawl.rows = c.written ++ t) →
      List.Chain' (· ≤ ·) (rs.checkpoints.map fun c => c.written.length) →
      (∀ c ∈ (l.foldl (scrapeStep env a s) rs).checkpoints,
          c.mode = CsvMode.overwrite ∧
          ∃ t, (l.foldl (scrapeStep env a s) rs).crawl.rows = c.written ++ t) ∧
      List.Chain' (· ≤ ·)
        ((l.foldl (scrapeStep env a s) rs).checkpoints.map fun c => c.written.length) := by
  intro l
  induction l with
  | nil => intro rs h1 h2; exact ⟨h1, h2⟩
  | cons p rest ih =>
    intro rs h1 h2
    rw [List.foldl_cons]
    obtain ⟨g1, g2⟩ := scrapeStep_cp_preserve env a s rs p h1 h2
    exact ih _ g1 g2

theorem cpInv_fires (s k p next : Nat) (h : cpInv s k p next) :
    (p = next ∨ (p - s + 1) % k = 0) ↔ (p - s + 1) % k = 0 := by
  constructor
  · rintro (rfl | hm)
    · rcases h with ⟨hn, hp⟩ | ⟨_, hm2, _, _⟩
      · omega
      · exact hm2
    · exact hm
  · exact Or.inr

theorem cpInv_step (s k p next : Nat) (hk : k ≠ 0) (hs : s ≤ p) (h : cpInv s k p next) :
    cpInv s k (p + 1) (if (p - s + 1) % k = 0 then p + k else next) := by
  by_cases hm : (p - s + 1) % k = 0
  · rw [if_pos hm]
    right
    refine ⟨by omega, ?_, by omega, by omega⟩
    have he : p + k - s + 1 = (p - s + 1) + k := by omega
    rw [he, Nat.add_mod_right, hm]
  · rw [if_neg hm]
    rcases h with ⟨hn, hp⟩ | ⟨h1, h2, h3, h4⟩
    · left
      refine ⟨hn, ?_⟩
      rcases Nat.lt_or_ge (p + 1) (s + k) with hlt | hge
      · exact hlt
      · exfalso
        have he : p - s + 1 = k := by omega
        rw [he, Nat.mod_self] at hm
        exact hm rfl
    · right
      refine ⟨h1, h2, ?_, by omega⟩
      rcases Nat.lt_or_ge p next with hlt | hge
      · omega
      · exfalso
        have he : p = next := by omega
        rw [he] at hm
        exact hm h2

theorem cp_fold (env : Env) (a : Args) (s : Nat) (hk : a.checkpoint_every ≠ 0) :
    ∀ (n p : Nat) (rs : RunState), s ≤ p → cpInv s a.checkpoint_every p rs.nextCp →
      ((List.range' p n).foldl (scrapeStep env a s) rs).checkpoints.map Checkpoint.page =
        rs.checkpoints.map Checkpoint.page ++
          (List.range' p n).filter (fun q => (q - s + 1) % a.checkpoint_every == 0) := by
  intro n
  induction n with
  | zero => intro p rs _ _; simp
  | succ m ih =>
    intro p rs hs hinv
    rw [List.range'_succ, List.foldl_cons]
    have hiff := cpInv_fires s a.checkpoint_every p rs.nextCp hinv
    by_cases hm : (p - s + 1) % a.checkpoint_every = 0
    · have hcond : a.checkpoint_every ≠ 0 ∧
          (p = rs.nextCp ∨ (p - s + 1) % a.checkpoint_every = 0) := ⟨hk, Or.inr hm⟩
      obtain ⟨hcps, hnext⟩ := scrapeStep_cp_pos env a s rs p hcond
      have hinv' : cpInv s a.checkpoint_every (p + 1) (scrapeStep env a s rs p).nextCp := by
        rw [hnext]
        have hstep := cpInv_step s a.checkpoint_every p rs.nextCp hk hs hinv
        rw [if_pos hm] at hstep
        exact hstep
      rw [ih (p + 1) _ (by omega) hinv', hcps]
      rw [List.filter_cons_of_pos (by simp [hm])]
      simp [List.map_append]
    · have hcond : ¬(a.checkpoint_every ≠ 0 ∧
          (p = rs.nextCp ∨ (p - s + 1) % a.checkpoint_every = 0)) := by
        intro hc
        exact hm (hiff.1 hc.2)
      obtain ⟨hcps, hnext⟩ := scrapeStep_cp_neg env a s rs p hcond
      have hinv' : cpInv s a.checkpoint_every (p + 1) (scrapeStep env a s rs p).nextCp := by
        rw [hnext]
        have hstep := cpInv_step s a.checkpoint_every p rs.nextCp hk hs hinv
        rw [if_neg hm] at hstep
        exact hstep
      rw [ih (p + 1) _ (by omega) hinv', hcps]
      rw [List.filter_cons_of_neg (by simp [hm])]

/-- C8: with a configured checkpoint interval `k > 0`, an intermediate write
happens exactly after those pages whose count of completed pages since the
start of the range is a multiple of `k`; every such write uses the
`overwrite` discipline (never `append`) and writes the entire record
sequence accumulated so far — each written snapshot extends to the final
accumulated sequence and the written record counts are non-decreasing. -/
theorem checkpoint_schedule (env : Env) (a : Args) (hk : a.checkpoint_every ≠ 0) :
    (scrape_pages env a).checkpoints.map Checkpoint.page =
      (pagesOf a env.discovered).filter
        (fun q => (q - (pageBounds a env.discovered).1 + 1) % a.checkpoint_every == 0) ∧
    (∀ c ∈ (scrape_pages env a).checkpoints, c.mode = CsvMode.overwrite) ∧
    (∀ c ∈ (scrape_pages env a).checkpoints,
      ∃ t, (scrape_pages env a).crawl.rows = c.written ++ t) ∧
    List.Chain' (· ≤ ·)
      ((scrape_pages env a).checkpoints.map fun c => c.written.length) := by
  have hinv : cpInv (pageBounds a env.discovered).1 a.checkpoint_every
      (pageBounds a env.discovered).1 (initRun a (pageBounds a env.discovered).1).nextCp := by
    left
    exact ⟨rfl, by omega⟩
  have hsched := cp_fold env a (pageBounds a env.discovered).1 hk
    ((pageBounds a env.discovered).2 + 1 - (pageBounds a env.discovered).1)
    (pageBounds a env.discovered).1 (initRun a (pageBounds a env.discovered).1)
    (le_refl _) hinv
  have hpres := foldl_cp_preserve env a (pageBounds a env.discovered).1
    (List.range' (pageBounds a env.discovered).1
      ((pageBounds a env.discovered).2 + 1 - (pageBounds a env.discovered).1))
    (initRun a (pageBounds a env.discovered).1)
    (by intro c hc; simp [initRun] at hc)
    (by simp [initRun])
  refine ⟨?_, ?_, ?_, ?_⟩
  · unfold scrape_pages pagesOf
    dsimp only
    rw [hsched]
    simp [initRun]
  · intro c hc
    exact (hpres.1 c hc).1
  · intro c hc
    exact (hpres.1 c hc).2
  · exact hpres.2

/-- Five-page non-auto configuration with checkpoint interval 2. -/
def cpArgs : Args :=
  { start_page := 1, end_page := some 5, all_pages := false, csv_mode := CsvMode.new,
    retry := 0, checkpoint_every := 2, reset_session_every := 0 }

theorem checkpoint_schedule_witness :
    cpArgs.checkpoint_every ≠ 0 ∧
    ((scrape_pages c1Env cpArgs).checkpoints.map Checkpoint.page =
      (pagesOf cpArgs c1Env.discovered).filter
        (fun q => (q - (pageBounds cpArgs c1Env.discovered).1 + 1) % cpArgs.checkpoint_every == 0) ∧
     (∀ c ∈ (scrape_pages c1Env cpArgs).checkpoints, c.mode = CsvMode.overwrite) ∧
     (∀ c ∈ (scrape_pages c1Env cpArgs).checkpoints,
       ∃ t, (scrape_pages c1Env cpArgs).crawl.rows = c.written ++ t) ∧
     List.Chain' (· ≤ ·)
       ((scrape_pages c1Env cpArgs).checkpoints.map fun c => c.written.length)) ∧
    (scrape_pages c1Env cpArgs).checkpoints.map Checkpoint.page = [2, 4] := by
  have hk : cpArgs.checkpoint_every ≠ 0 := by decide
  exact ⟨hk, checkpoint_schedule c1Env cpArgs hk, by decide⟩

/-- C10: when auto-discovery is off and no end page is given, the processed
page range is exactly the one-element range holding the start page. -/
theorem single_page_range (a : Args) (d : Nat)
    (h1 : a.all_pages = false) (h2 : a.end_page = none) :
    pagesOf a d = [a.start_page] := by
  simp [pagesOf, pageBounds, h1, h2]

theorem single_page_range_witness :
    pagesOf
      { start_page := 4, end_page := none, all_pages := false, csv_mode := CsvMode.new,
        retry := 2, checkpoint_every := 0, reset_session_every := 0 } 9 = [4] :=
  single_page_range _ 9 rfl rfl

end Scraper
